import Mathlib

/-!
Shallow embedding of the retrieval-and-classification engine of
`src/rag_v3.py` (class `RAGSystem`), together with proofs of the
specification's claims about it.

Modelling conventions:
* Python strings are Lean `String`s; `str.split()` (split on whitespace
  runs, dropping empty pieces) is `splitWs`.
* The pandas frames are modelled as `Option (List Row)`:
  `some rows` is a frame that has the `name`/`ingredients` columns (the
  result of a successful `pd.read_csv`), while `none` is the column-less
  `pd.DataFrame()` produced by the `except` branches of the `_load_*`
  methods; indexing a column of such a frame raises `KeyError`, which the
  embedding surfaces as `Except.error "KeyError: name"`.
* `Series.str.contains(query, case=False)` uses pandas' default
  `regex=True`, i.e. the query is compiled as a Python regular expression
  with `re.IGNORECASE` and matched with search semantics (a match may
  start anywhere).  The regex fragment actually exercised by the claims —
  literal characters and the metacharacter `.` — is embedded exactly
  (`parsePattern`, Brzozowski-style matching in `matchesInit`/`reSearch`);
  queries using any other metacharacter are outside the model and make
  `parsePattern` return `none`, which `retrieveRelevantInfo` propagates as
  an error value.  Case folding uses `Char.toLower` (basic-latin, which
  agrees with Python on the ASCII/Arabic data involved).
* Python float `0.8` (the fixed confidence) is modelled as the rational
  `0.8 : ℚ`.
-/

/-- A row of the recipe or product table (`data/moroccan_recipes.csv`,
`data/moroccan_products.csv`): `name` and `ingredients` columns, plus the
extra columns (`brand` only in products, `gluten_status` in both) that the
classifier never reads. -/
structure Row where
  name : String
  ingredients : String
  brand : Option String
  gluten_status : Option Bool
deriving DecidableEq

/-- A row of the nutritional reference table (`data/nutritional_ref.csv`);
loaded but never consulted by `retrieve_relevant_info`. -/
structure NutritionRow where
  ingredient : String
  gluten_content : String
  alternative : String
deriving DecidableEq

/-- The `GlutenAnalysisResult` dataclass (rag_v3.py lines 146-153). -/
structure GlutenAnalysisResult where
  item_name : String
  contains_gluten : Bool
  gluten_sources : List String
  alternative_suggestions : List String
  confidence_score : ℚ
  nutritional_details : List (String × String)
deriving DecidableEq

/-- The three tables held in `self.data_sources`, keyed by the
`DataSource` enum; `none` models a column-less `pd.DataFrame()` left by a
failed load. -/
structure DataSources where
  recipes : Option (List Row)
  products : Option (List Row)
  nutrition : Option (List NutritionRow)
deriving DecidableEq

/-- From `_load_gluten_ingredients` (lines 270-279): the fixed lexicon
`base_gluten_ingredients`.  The Python value is a `set`; only membership
is ever used, so a list is adequate. -/
def glutenIngredients : List String :=
  ["wheat", "barley", "rye", "couscous", "semolina",
   "bulgur", "فريكة", "قمح", "شعير"]

/-- Accumulating whitespace tokenizer over the characters of a string:
`cur` holds the (reversed) characters of the token being read. -/
def wsTokensAux : List Char → List Char → List (List Char)
  | cur, [] => if cur.isEmpty then [] else [cur.reverse]
  | cur, c :: cs =>
    if c.isWhitespace then
      if cur.isEmpty then wsTokensAux [] cs
      else cur.reverse :: wsTokensAux [] cs
    else wsTokensAux (c :: cur) cs

/-- Python `str.split()` with no separator: split on whitespace runs,
dropping empty pieces (leading/trailing/repeated whitespace yields no
empty tokens). -/
def splitWs (s : String) : List String :=
  (wsTokensAux [] s.toList).map (fun cs => String.mk cs)

/-- Python `str.lower()` (character-wise lower-casing; `Char.toLower` is
basic-latin, which agrees with Python on the data involved). -/
def lowerStr (s : String) : String :=
  String.mk (s.toList.map Char.toLower)

/-- The `contains_gluten` expression inlined in `retrieve_relevant_info`
(lines 304-307 and 324-327):
`any(ing in self.gluten_ingredients for ing in str(item['ingredients']).split())`.
The rows are modelled with string `ingredients`, so `str(...)` is the
identity. -/
def containsGluten (ingredients : String) : Bool :=
  (splitWs ingredients).any (fun ing => glutenIngredients.contains ing)

/-- The `gluten_sources` list comprehension inlined in
`retrieve_relevant_info` (lines 312-315 and 332-335):
`[ing for ing in str(item['ingredients']).split() if ing in self.gluten_ingredients]`. -/
def glutenSources (ingredients : String) : List String :=
  (splitWs ingredients).filter (fun ing => glutenIngredients.contains ing)

/-- Plain Python substring containment `needle in hay` on character
lists: `needle` occurs contiguously somewhere in `hay`. -/
def listContainsSub (needle : List Char) : List Char → Bool
  | [] => needle.isEmpty
  | c :: t => needle.isPrefixOf (c :: t) || listContainsSub needle t

/-- Python `needle in hay` on strings (case-sensitive). -/
def strContains (needle hay : String) : Bool :=
  listContainsSub needle.toList hay.toList

/-- The fixed `moroccan_alternatives` dict of `_generate_alternatives`
(lines 352-356), in its (insertion-order) iteration order. -/
def moroccanAlternatives : List (String × List String) :=
  [("couscous", ["quinoa", "rice", "corn couscous"]),
   ("bread", ["corn bread", "rice bread"]),
   ("flour", ["rice flour", "corn flour"])]

/-- Embedding of `_generate_alternatives` (lines 344-363): lower-case the item name,
then for each catalog pair append all substitutes whose keyword occurs in
the lowered name. -/
def generateAlternatives (item_name : String) : List String :=
  moroccanAlternatives.foldl
    (fun alternatives p =>
      if strContains p.1 (lowerStr item_name) then alternatives ++ p.2
      else alternatives)
    []

/-- The loop body shared verbatim by the two result-construction loops of
`retrieve_relevant_info` (lines 303-320 for recipes, 323-340 for
products): build one `GlutenAnalysisResult` from a matched row. -/
def analyzeRow (item : Row) : GlutenAnalysisResult :=
  { item_name := item.name
    contains_gluten := containsGluten item.ingredients
    gluten_sources := glutenSources item.ingredients
    alternative_suggestions := generateAlternatives item.name
    confidence_score := (0.8 : ℚ)
    nutritional_details := [] }

/-- Regular expressions over the fragment of Python `re` syntax the model
covers: the empty-language regex (arising only as a derivative), the
empty-string regex, a literal character (matched case-insensitively,
because `case=False` always passes `re.IGNORECASE`), the metacharacter
`.` (any character except newline), and concatenation/alternation
(alternation arises only as a derivative). -/
inductive RE where
  | fail : RE
  | eps : RE
  | ch : Char → RE
  | dot : RE
  | cat : RE → RE → RE
  | alt : RE → RE → RE
deriving DecidableEq

/-- Does the regex accept the empty string? -/
def nullable : RE → Bool
  | .fail => false
  | .eps => true
  | .ch _ => false
  | .dot => false
  | .cat a b => nullable a && nullable b
  | .alt a b => nullable a || nullable b

/-- Brzozowski derivative with respect to one character, with
`re.IGNORECASE` folding baked into the literal-character case and the
no-newline behaviour of `.` (no `re.DOTALL`). -/
def reDeriv : RE → Char → RE
  | .fail, _ => .fail
  | .eps, _ => .fail
  | .ch c, d => if c.toLower == d.toLower then .eps else .fail
  | .dot, d => if d == '\n' then .fail else .eps
  | .cat a b, d =>
      if nullable a then .alt (.cat (reDeriv a d) b) (reDeriv b d)
      else .cat (reDeriv a d) b
  | .alt a b, d => .alt (reDeriv a d) (reDeriv b d)

/-- Does the regex match some prefix (possibly empty) of the character
list? -/
def matchesInit : RE → List Char → Bool
  | r, [] => nullable r
  | r, c :: cs => nullable r || matchesInit (reDeriv r c) cs

/-- Python `re.search` semantics: does the regex match a substring
starting at some position? -/
def reSearch : RE → List Char → Bool
  | r, [] => nullable r
  | r, c :: cs => matchesInit r (c :: cs) || reSearch r cs

/-- The regex metacharacters (other than `.`) of Python `re` syntax;
queries containing any of them are outside the modelled fragment. -/
def metachars : List Char :=
  ['\\', '^', '$', '*', '+', '?', '\x7b', '\x7d', '[', ']', '|', '(', ')']

/-- Compile a query string into the modelled regex fragment: each literal
character stands for itself, `.` for any-character; any other
metacharacter makes the pattern unmodelled (`none`).  (Python itself
accepts some of those further patterns and rejects others with
`re.error`; no claim is settled on them.) -/
def parsePattern : List Char → Option RE
  | [] => some .eps
  | c :: cs =>
    if metachars.contains c then none
    else
      match parsePattern cs with
      | none => none
      | some r => some (.cat (if c == '.' then .dot else .ch c) r)

/-- The regex a metacharacter-free query compiles to: the concatenation
of its characters as literals. -/
def literalRE : List Char → RE
  | [] => .eps
  | c :: cs => .cat (.ch c) (literalRE cs)

/-- A query that contains no regex metacharacter and no `.`: for these,
pandas `str.contains(query, case=False, regex=True)` coincides with
case-insensitive substring containment. -/
def isLiteralQuery (q : String) : Bool :=
  q.toList.all (fun c => !(metachars.contains c) && !(c == '.'))

/-- Case-insensitive substring containment — the match predicate as the
specification words it (\"query appears as a case-insensitive substring\"). -/
def containsCI (needle hay : String) : Bool :=
  listContainsSub (needle.toList.map Char.toLower) (hay.toList.map Char.toLower)

/-- The specification's row-match predicate: the query is a
case-insensitive substring of the row's name or of its ingredients. -/
def specMatch (query : String) (row : Row) : Bool :=
  containsCI query row.name || containsCI query row.ingredients

/-- The row-match predicate the code computes (lines 291-300): the
compiled query regex searches the `name` or the `ingredients` field. -/
def rowMatches (r : RE) (row : Row) : Bool :=
  reSearch r row.name.toList || reSearch r row.ingredients.toList

/-- Embedding of `retrieve_relevant_info` (lines 281-342).  Evaluation order follows
the source: indexing `recipes['name']` first (KeyError on a column-less
frame), then compiling the query regex, then indexing
`products['name']`; on success, recipe matches are analysed before
product matches, each table in row order. -/
def retrieveRelevantInfo (db : DataSources) (query : String) :
    Except String (List GlutenAnalysisResult) :=
  match db.recipes with
  | none => .error "KeyError: name"
  | some recipeRows =>
    match parsePattern query.toList with
    | none => .error "re pattern outside the modelled fragment"
    | some r =>
      match db.products with
      | none => .error "KeyError: name"
      | some productRows =>
        let recipeMatches := recipeRows.filter (rowMatches r)
        let productMatches := productRows.filter (rowMatches r)
        .ok (recipeMatches.map analyzeRow ++ productMatches.map analyzeRow)

/-- The `try/except` wrapper of `_load_recipe_database`,
`_load_product_catalog` and `_load_nutritional_database` (lines 240-268):
a successful `pd.read_csv` yields a frame with the CSV's columns
(`some rows`), any exception is caught, printed and replaced by the
column-less empty frame `pd.DataFrame()` (`none`); nothing is re-raised. -/
def loadTable {α : Type} (readResult : Except String (List α)) : Option (List α) :=
  match readResult with
  | .ok rows => some rows
  | .error _ => none

/-- One iteration of the response-building loop of `generate_response`
(lines 378-391): append the name/status line, then the gluten-source
bullets when the list is truthy (non-empty), then the alternative bullets
when that list is truthy. -/
def appendResult (response : String) (result : GlutenAnalysisResult) : String :=
  let gluten_status :=
    if result.contains_gluten then "يحتوي على الغلوتين"
    else "خالٍ من الغلوتين"
  let response := response ++ "- " ++ result.item_name ++ ": " ++ gluten_status ++ "\n"
  let response :=
    if result.gluten_sources.isEmpty then response
    else
      result.gluten_sources.foldl
        (fun resp source => resp ++ "    * " ++ source ++ "\n")
        (response ++ "  مصادر الغلوتين:\n")
  let response :=
    if result.alternative_suggestions.isEmpty then response
    else
      result.alternative_suggestions.foldl
        (fun resp alternative => resp ++ "    * " ++ alternative ++ "\n")
        (response ++ "  بدائل مقترحة:\n")
  response

/-- Embedding of `generate_response` (lines 365-393): the fixed no-information message
for an empty result list, otherwise the header followed by the
accumulating loop; `query_language` is accepted (default `"darija"` at
the call sites) and never used. -/
def generateResponse (retrieved_info : List GlutenAnalysisResult)
    (query_language : String) : String :=
  if retrieved_info.isEmpty then "معلومات غير متوفرة"
  else retrieved_info.foldl appendResult "نتائج البحث:\n"

/-- Concatenation of a list of strings (used to state the per-result
block structure of the composed response). -/
def concatStrs : List String → String
  | [] => ""
  | s :: rest => s ++ concatStrs rest

/-- One bulleted, indented line per item. -/
def bulletLines (items : List String) : String :=
  concatStrs (items.map (fun i => "    * " ++ i ++ "\n"))

/-- The two-valued gluten status label of `generate_response`. -/
def glutenLabel (b : Bool) : String :=
  if b then "يحتوي على الغلوتين" else "خالٍ من الغلوتين"

/-- The block `generate_response` emits for one result: name/status
line, then the gluten-source list only when non-empty, then the
alternatives list only when non-empty. -/
def resultBlock (r : GlutenAnalysisResult) : String :=
  "- " ++ r.item_name ++ ": " ++ glutenLabel r.contains_gluten ++ "\n" ++
  (if r.gluten_sources.isEmpty then ""
   else "  مصادر الغلوتين:\n" ++ bulletLines r.gluten_sources) ++
  (if r.alternative_suggestions.isEmpty then ""
   else "  بدائل مقترحة:\n" ++ bulletLines r.alternative_suggestions)

/-- The seed recipe table written by `_prepare_data_files`
(lines 204-209). -/
def seedRecipes : List Row :=
  [⟨"Tagine", "lamb", none, some false⟩,
   ⟨"Couscous", "wheat semolina", none, some true⟩,
   ⟨"Harira", "flour", none, some true⟩,
   ⟨"Pastilla", "wheat flour", none, some true⟩,
   ⟨"Zaalouk", "eggplant", none, some false⟩]

/-- The seed product table written by `_prepare_data_files`
(lines 211-218). -/
def seedProducts : List Row :=
  [⟨"Sardines à l\x27huile", "sardines salt oil", some "Conserver", some false⟩,
   ⟨"Moroccan Bread", "wheat flour", some "Local Bakery", some true⟩,
   ⟨"Rice Cookies", "rice flour sugar", some "Meknes Sweets", some false⟩]

/-- The seed nutritional reference table written by `_prepare_data_files`
(lines 220-226). -/
def seedNutrition : List NutritionRow :=
  [⟨"wheat", "high", "rice"⟩,
   ⟨"barley", "high", "millet"⟩,
   ⟨"rye", "high", "corn"⟩,
   ⟨"couscous", "high", "quinoa"⟩]

/-- The data sources as they stand after a fresh bootstrap: all three
tables loaded successfully with the seed content. -/
def seedDB : DataSources :=
  ⟨some seedRecipes, some seedProducts, some seedNutrition⟩

/-! ## Helper lemmas -/

theorem containsGluten_iff_sources_ne_nil (ing : String) :
    containsGluten ing = true ↔ glutenSources ing ≠ [] := by
  simp [containsGluten, glutenSources, Ne, List.filter_eq_nil_iff]

theorem listContainsSub_nil_left (l : List Char) : listContainsSub [] l = true := by
  cases l <;> simp [listContainsSub, List.isPrefixOf]

theorem containsCI_empty_left (s : String) : containsCI "" s = true := by
  simpa [containsCI] using listContainsSub_nil_left (s.toList.map Char.toLower)

theorem matchesInit_fail (s : List Char) : matchesInit .fail s = false := by
  induction s with
  | nil => rfl
  | cons c cs ih => simpa [matchesInit, reDeriv, nullable] using ih

theorem matchesInit_alt (a b : RE) (s : List Char) :
    matchesInit (.alt a b) s = (matchesInit a s || matchesInit b s) := by
  induction s generalizing a b with
  | nil => rfl
  | cons c cs ih =>
    simp [matchesInit, reDeriv, nullable, ih, Bool.or_assoc, Bool.or_left_comm]

theorem matchesInit_cat_fail (r : RE) (s : List Char) :
    matchesInit (.cat .fail r) s = false := by
  induction s with
  | nil => rfl
  | cons c cs ih => simpa [matchesInit, reDeriv, nullable] using ih

theorem matchesInit_cat_eps (r : RE) (s : List Char) :
    matchesInit (.cat .eps r) s = matchesInit r s := by
  induction s generalizing r with
  | nil => simp [matchesInit, nullable]
  | cons c cs ih =>
    simp [matchesInit, reDeriv, nullable, matchesInit_alt, matchesInit_cat_fail]

theorem matchesInit_literal (p : List Char) :
    ∀ s : List Char, matchesInit (literalRE p) s
      = (p.map Char.toLower).isPrefixOf (s.map Char.toLower) := by
  induction p with
  | nil =>
    intro s
    cases s <;> simp [literalRE, matchesInit, nullable, List.isPrefixOf]
  | cons a as ih =>
    intro s
    cases s with
    | nil => simp [literalRE, matchesInit, nullable, List.isPrefixOf]
    | cons c cs =>
      have key : matchesInit (literalRE (a :: as)) (c :: cs)
          = matchesInit (.cat (reDeriv (.ch a) c) (literalRE as)) cs := by
        simp [literalRE, matchesInit, reDeriv, nullable]
      cases h : (a.toLower == c.toLower) with
      | true =>
        rw [key, show reDeriv (.ch a) c = .eps from by simp [reDeriv, h]]
        rw [matchesInit_cat_eps, ih cs]
        simp [List.isPrefixOf, h]
      | false =>
        rw [key, show reDeriv (.ch a) c = .fail from by simp [reDeriv, h]]
        rw [matchesInit_cat_fail]
        simp [List.isPrefixOf, h]

theorem reSearch_literal (p : List Char) :
    ∀ s : List Char, reSearch (literalRE p) s
      = listContainsSub (p.map Char.toLower) (s.map Char.toLower) := by
  intro s
  induction s with
  | nil =>
    cases p <;> simp [reSearch, literalRE, nullable, listContainsSub, List.isEmpty]
  | cons c cs ih =>
    simp [reSearch, listContainsSub, matchesInit_literal, ih]

theorem parsePattern_literal (cs : List Char)
    (h : cs.all (fun c => !(metachars.contains c) && !(c == '.')) = true) :
    parsePattern cs = some (literalRE cs) := by
  induction cs with
  | nil => rfl
  | cons c cs ih =>
    simp only [List.all_cons, Bool.and_eq_true, Bool.not_eq_true'] at h
    obtain ⟨⟨hm, hd⟩, hrest⟩ := h
    have hm' : c ∉ metachars := by simpa using hm
    simp [parsePattern, hm', hd, literalRE, ih hrest]

theorem rowMatches_literal (q : String) (row : Row) :
    rowMatches (literalRE q.toList) row = specMatch q row := by
  simp [rowMatches, specMatch, containsCI, reSearch_literal]

theorem specMatch_empty (row : Row) : specMatch "" row = true := by
  simp [specMatch, containsCI_empty_left]

theorem retrieve_literal_eq (rrows prows : List Row) (n : Option (List NutritionRow))
    (q : String) (h : isLiteralQuery q = true) :
    retrieveRelevantInfo ⟨some rrows, some prows, n⟩ q =
      Except.ok ((rrows.filter (specMatch q)).map analyzeRow ++
                 (prows.filter (specMatch q)).map analyzeRow) := by
  have hp : parsePattern q.data = some (literalRE q.toList) :=
    parsePattern_literal q.toList h
  have hm : rowMatches (literalRE q.data) = specMatch q :=
    funext (rowMatches_literal q)
  simp [retrieveRelevantInfo, hp, hm]

theorem foldl_if_append {α β : Type} (l : List (α × List β)) (cond : α × List β → Bool) :
    ∀ acc : List β,
      l.foldl (fun acc p => if cond p then acc ++ p.2 else acc) acc
        = acc ++ ((l.filter cond).map Prod.snd).flatten := by
  induction l with
  | nil => intro acc; simp
  | cons x xs ih =>
    intro acc
    cases hc : cond x <;>
      simp [List.foldl_cons, hc, ih, List.filter_cons, List.append_assoc]

theorem bullets_foldl (items : List String) :
    ∀ init : String,
      items.foldl (fun resp s => resp ++ "    * " ++ s ++ "\n") init
        = init ++ bulletLines items := by
  induction items with
  | nil => intro init; simp [bulletLines, concatStrs]
  | cons x xs ih =>
    intro init
    rw [List.foldl_cons, ih]
    simp [bulletLines, concatStrs, String.append_assoc]

theorem appendResult_eq (response : String) (result : GlutenAnalysisResult) :
    appendResult response result = response ++ resultBlock result := by
  unfold appendResult resultBlock
  simp only [bullets_foldl]
  cases hg : result.gluten_sources.isEmpty <;>
    cases ha : result.alternative_suggestions.isEmpty <;>
      (apply String.ext
       simp [hg, ha, glutenLabel, String.data_append, List.append_assoc])

theorem foldl_appendResult (rs : List GlutenAnalysisResult) :
    ∀ init : String, rs.foldl appendResult init = init ++ concatStrs (rs.map resultBlock) := by
  induction rs with
  | nil => intro init; simp [concatStrs]
  | cons r rest ih =>
    intro init
    simp [concatStrs, ih, appendResult_eq, String.append_assoc]

/-! ## Claims -/

/-- C1: for every AnalysisResult produced by retrieval, `contains_gluten`
is true if and only if `gluten_sources` is non-empty. -/
theorem claim_C1_contains_gluten_iff_sources
    (rrows prows : List Row) (n : Option (List NutritionRow)) (q : String)
    (rs : List GlutenAnalysisResult)
    (h : retrieveRelevantInfo ⟨some rrows, some prows, n⟩ q = Except.ok rs) :
    ∀ r ∈ rs, (r.contains_gluten = true ↔ r.gluten_sources ≠ []) := by
  intro r hr
  simp only [retrieveRelevantInfo] at h
  split at h
  · simp at h
  · simp only [Except.ok.injEq] at h
    subst h
    rcases List.mem_append.mp hr with hm | hm <;>
      obtain ⟨row, _, hrow⟩ := List.mem_map.mp hm <;>
        (subst hrow
         simpa [analyzeRow] using containsGluten_iff_sources_ne_nil row.ingredients)

theorem claim_C1_witness :
    retrieveRelevantInfo seedDB "couscous" =
      Except.ok [analyzeRow ⟨"Couscous", "wheat semolina", none, some true⟩] ∧
    ((analyzeRow ⟨"Couscous", "wheat semolina", none, some true⟩).contains_gluten = true ↔
      (analyzeRow ⟨"Couscous", "wheat semolina", none, some true⟩).gluten_sources ≠ []) :=
  ⟨rfl,
   claim_C1_contains_gluten_iff_sources seedRecipes seedProducts (some seedNutrition)
     "couscous" _ rfl _ (List.mem_singleton.mpr rfl)⟩

/-- C2: for every ingredient text, the extracted gluten sources are a
sub-sequence of the whitespace tokens of that text (hence verbatim
tokens, duplicates preserved, in original order) and every one of them
belongs to the gluten lexicon. -/
theorem claim_C2_sources_are_lexicon_tokens (text : String) :
    (glutenSources text).Sublist (splitWs text) ∧
    (glutenSources text).all (fun s => glutenIngredients.contains s) = true := by
  refine ⟨List.filter_sublist _, ?_⟩
  simp [glutenSources, List.all_eq_true, List.mem_filter]

/-- C3: a token counts as a gluten source exactly when it is a
whitespace token of the text and a lexicon member under whole-token
equality; in particular "wheat-free" contains "wheat" as a substring yet
is never classified as a gluten source. -/
theorem claim_C3_whole_token_equality (text tok : String) :
    (tok ∈ glutenSources text ↔ tok ∈ splitWs text ∧ tok ∈ glutenIngredients) ∧
    strContains "wheat" "wheat-free" = true ∧
    glutenSources "wheat-free bread" = [] ∧
    containsGluten "wheat-free bread" = false := by
  refine ⟨?_, by decide, by decide, by decide⟩
  simp [glutenSources, List.mem_filter]

/-- C4 counterexample: the query "." (no regex metacharacter escaping is
performed by the code) is matched against every seed row, although "."
is not a case-insensitive substring of the Tagine row's name or
ingredients; so "returned iff case-insensitive substring" is false. -/
theorem claim_C4_counterexample :
    retrieveRelevantInfo seedDB "." =
      Except.ok (seedRecipes.map analyzeRow ++ seedProducts.map analyzeRow) ∧
    containsCI "." "Tagine" = false ∧
    containsCI "." "lamb" = false ∧
    (seedRecipes.map Row.name).contains "Tagine" = true :=
  ⟨rfl, by decide, by decide, by decide⟩

/-- C4 (amended): for every query free of regex metacharacters the code's
match predicate coincides with case-insensitive substring containment on
the name or ingredients field, and the empty query returns every row of
both scanned tables. -/
theorem claim_C4_literal_query_is_substring_search
    (rrows prows : List Row) (n : Option (List NutritionRow)) (q : String)
    (h : isLiteralQuery q = true) :
    retrieveRelevantInfo ⟨some rrows, some prows, n⟩ q =
      Except.ok ((rrows.filter (specMatch q)).map analyzeRow ++
                 (prows.filter (specMatch q)).map analyzeRow) ∧
    retrieveRelevantInfo ⟨some rrows, some prows, n⟩ "" =
      Except.ok (rrows.map analyzeRow ++ prows.map analyzeRow) := by
  refine ⟨retrieve_literal_eq rrows prows n q h, ?_⟩
  rw [retrieve_literal_eq rrows prows n "" (by decide)]
  have hall : ∀ l : List Row, l.filter (specMatch "") = l := by
    intro l
    exact List.filter_eq_self.mpr (fun row _ => specMatch_empty row)
  rw [hall, hall]

theorem claim_C4_witness :
    isLiteralQuery "couscous" = true ∧
    (retrieveRelevantInfo seedDB "couscous" =
      Except.ok ((seedRecipes.filter (specMatch "couscous")).map analyzeRow ++
                 (seedProducts.filter (specMatch "couscous")).map analyzeRow) ∧
     retrieveRelevantInfo seedDB "" =
      Except.ok (seedRecipes.map analyzeRow ++ seedProducts.map analyzeRow)) :=
  ⟨by decide,
   claim_C4_literal_query_is_substring_search seedRecipes seedProducts
     (some seedNutrition) "couscous" (by decide)⟩

/-- C5: every successful retrieval result list is the image under the
per-row analysis of a sub-sequence of the recipe table followed by the
product table, obtained by filtering each table with one predicate
(recipe matches first, then product matches, each in source order). -/
theorem claim_C5_results_order
    (rrows prows : List Row) (n : Option (List NutritionRow)) (q : String)
    (rs : List GlutenAnalysisResult)
    (h : retrieveRelevantInfo ⟨some rrows, some prows, n⟩ q = Except.ok rs) :
    ∃ rows : List Row,
      rows.Sublist (rrows ++ prows) ∧
      rs = rows.map analyzeRow ∧
      ∃ p : Row → Bool, rows = rrows.filter p ++ prows.filter p := by
  simp only [retrieveRelevantInfo] at h
  split at h
  · simp at h
  · rename_i re hp
    simp only [Except.ok.injEq] at h
    refine ⟨rrows.filter (rowMatches re) ++ prows.filter (rowMatches re),
      List.Sublist.append (List.filter_sublist _) (List.filter_sublist _),
      ?_, rowMatches re, rfl⟩
    rw [← h, List.map_append]

theorem claim_C5_witness :
    retrieveRelevantInfo seedDB "couscous" =
      Except.ok [analyzeRow ⟨"Couscous", "wheat semolina", none, some true⟩] ∧
    ∃ rows : List Row,
      rows.Sublist (seedRecipes ++ seedProducts) ∧
      [analyzeRow ⟨"Couscous", "wheat semolina", none, some true⟩] = rows.map analyzeRow ∧
      ∃ p : Row → Bool, rows = seedRecipes.filter p ++ seedProducts.filter p :=
  ⟨rfl,
   claim_C5_results_order seedRecipes seedProducts (some seedNutrition) "couscous" _ rfl⟩

/-- C6: the generated alternatives are exactly the concatenation, in
catalog order and without deduplication, of the substitute lists of
every catalog keyword occurring in the lower-cased item name; in
particular "Couscous" yields quinoa, rice and corn couscous. -/
theorem claim_C6_alternatives_by_keyword (name : String) :
    generateAlternatives name =
      ((moroccanAlternatives.filter
          (fun p => strContains p.1 (lowerStr name))).map Prod.snd).flatten ∧
    generateAlternatives "Couscous" = ["quinoa", "rice", "corn couscous"] := by
  refine ⟨?_, by decide⟩
  simpa [generateAlternatives] using
    foldl_if_append moroccanAlternatives (fun p => strContains p.1 (lowerStr name)) []

/-- C7: composing the empty result list yields the fixed no-information
message; composing a non-empty list yields the header line followed by
one block per result in input order (name/status line, then the
gluten-source bullets only when non-empty, then the alternative bullets
only when non-empty). -/
theorem claim_C7_compose_structure (rs : List GlutenAnalysisResult) (lang : String)
    (h : rs ≠ []) :
    generateResponse [] lang = "معلومات غير متوفرة" ∧
    generateResponse rs lang = "نتائج البحث:\n" ++ concatStrs (rs.map resultBlock) := by
  cases rs with
  | nil => exact absurd rfl h
  | cons r rest =>
    refine ⟨rfl, ?_⟩
    have hne : generateResponse (r :: rest) lang
        = (r :: rest).foldl appendResult "نتائج البحث:\n" := rfl
    rw [hne, foldl_appendResult]

theorem claim_C7_witness :
    generateResponse [] "darija" = "معلومات غير متوفرة" ∧
    generateResponse [analyzeRow ⟨"Couscous", "wheat semolina", none, some true⟩] "darija" =
      "نتائج البحث:\n" ++
        concatStrs ([analyzeRow ⟨"Couscous", "wheat semolina", none, some true⟩].map resultBlock) :=
  claim_C7_compose_structure
    [analyzeRow ⟨"Couscous", "wheat semolina", none, some true⟩] "darija"
    (List.cons_ne_nil _ _)

/-- C8: the load wrapper itself swallows every error into the column-less
empty frame, but contrary to the claim a failed load of the recipe or
product table makes every subsequent query fail (KeyError on the missing
`name` column); only a failed nutrition load leaves querying intact. -/
theorem claim_C8_failed_load_breaks_querying :
    loadTable (Except.error "FileNotFoundError") = (none : Option (List Row)) ∧
    retrieveRelevantInfo ⟨none, some seedProducts, some seedNutrition⟩ "couscous" =
      Except.error "KeyError: name" ∧
    retrieveRelevantInfo ⟨some seedRecipes, none, some seedNutrition⟩ "couscous" =
      Except.error "KeyError: name" ∧
    retrieveRelevantInfo ⟨some seedRecipes, some seedProducts, none⟩ "couscous" =
      Except.ok [analyzeRow ⟨"Couscous", "wheat semolina", none, some true⟩] :=
  ⟨rfl, rfl, rfl, rfl⟩

/-- C9: two rows agreeing on name and ingredients but differing in any
extra column (brand, declared gluten flag) classify identically — the
declared flag is never consulted. -/
theorem claim_C9_declared_flag_not_consulted (r₁ r₂ : Row)
    (hn : r₁.name = r₂.name) (hi : r₁.ingredients = r₂.ingredients) :
    (analyzeRow r₁).contains_gluten = (analyzeRow r₂).contains_gluten ∧
    (analyzeRow r₁).gluten_sources = (analyzeRow r₂).gluten_sources := by
  simp [analyzeRow, hn, hi]

theorem claim_C9_witness :
    (analyzeRow ⟨"Couscous", "wheat semolina", none, some true⟩).contains_gluten =
      (analyzeRow ⟨"Couscous", "wheat semolina", some "BrandX", some false⟩).contains_gluten ∧
    (analyzeRow ⟨"Couscous", "wheat semolina", none, some true⟩).gluten_sources =
      (analyzeRow ⟨"Couscous", "wheat semolina", some "BrandX", some false⟩).gluten_sources :=
  claim_C9_declared_flag_not_consulted _ _ rfl rfl

/-- C10: the composed response never depends on the `query_language`
argument. -/
theorem claim_C10_language_independent
    (rs : List GlutenAnalysisResult) (l₁ l₂ : String) :
    generateResponse rs l₁ = generateResponse rs l₂ := rfl
